import Mathlib

/-!
Verification of the confidence-budgeted generation loop of the prediktor
repository (file `src/prediktor/prediction/confidence.py`).

Shallow embedding conventions:
* Token identifiers are natural numbers; scores and probabilities are
  exact rationals (the source computes with floats; rounding is abstracted).
* The model (`model(input_ids).logits[-1, :]`) is an external collaborator,
  embedded as a scorer function `List ℕ → List ℚ` returning the logits of
  the last position for the full current sequence.
* `torch.softmax` applies `x ↦ exp x / Σ exp` ; the real exponential is not
  an executable rational function, so the softmax kernel is a parameter
  `e : ℚ → ℚ`.  Theorems only assume of `e` what the real exponential
  satisfies (positivity, monotonicity), and concrete evaluations pick
  scenarios (all-equal logits) whose outcome is the same for every
  positive kernel, so nothing depends on a particular stand-in.
* `torch.multinomial(probabilities, num_samples=1)` is embedded as
  inverse-CDF sampling: one uniform draw `u` selects the first index whose
  cumulative probability exceeds `u`.  The seeded random source is a
  stream `rng : ℕ → ℚ` indexed by the number of draws made so far.
* The mutated global `Config.confidence` is threaded explicitly: `generate`
  receives the current value and the result records the value after the
  call (the source updates the class attribute in place).
* `torch.topk(logits, k)` raises a runtime error when `k` exceeds the size
  of `logits`; fallible behaviour is embedded with `Except`.
* The tokenizer is an external collaborator; `generate` receives the
  encoded prompt and returns the token-id suffix (the source decodes it to
  text with a fixed injective decoder, so byte-identical text corresponds
  to identical token-id lists).
-/

/-- Configuration fields read by `generate` (class `Config` in the source;
`confidence` is excluded here because the source mutates it, so it is
threaded as state; `eos_token_id` lives on the tokenizer in the source). -/
structure Config where
  top_k : ℕ
  temperature : ℚ
  max_length : ℤ
  eos_token_id : ℕ
deriving DecidableEq

/-- Why the generation loop stopped: the `break` on a depleted confidence
budget, the `break` on drawing the end-of-sequence token, or the `while`
length condition turning false. -/
inductive Reason where
  | budget
  | endToken
  | length
deriving DecidableEq

/-- Errors the embedded pipeline can raise.  The source performs no
configuration validation; its loop failures are runtime errors: the
`torch.topk` error when `k` exceeds the score vector length (modeled
here), and `torch.multinomial` errors on NaN or empty probability
tensors reached from `temperature = 0` (float division by zero) or
`top_k = 0`.  Those multinomial failures are floating-point paths with
no rational counterpart and are out of this embedding's scope: `pick`
and the `getD` fallback totalize them, and no theorem below quantifies
into that corner.  `invalidConfiguration` is the error class named by
the specification; it appears in the type so that the specification's
claim about it can be stated, but no code path produces it. -/
inductive GenError where
  | invalidConfiguration
  | topkRange
deriving DecidableEq

/-- State of the loop at exit: the full `input_ids`, the exit reason, the
value of the mutated `Config.confidence`, the number of scorer (model)
queries made, and the number of random draws consumed. -/
structure GenOut where
  ids : List ℕ
  reason : Reason
  conf : ℚ
  queries : ℕ
  draws : ℕ
deriving DecidableEq

/-- Result of `generate`: the full final sequence, the generated suffix
(`input_ids[original_length:]` in the source), the exit reason, the
post-call value of the global `Config.confidence`, and the query/draw
counts (execution observables used by the stated properties). -/
structure GenerationResult where
  ids : List ℕ
  suffix : List ℕ
  reason : Reason
  conf : ℚ
  queries : ℕ
  draws : ℕ
deriving DecidableEq

/-- Ordering used to embed `torch.topk`: larger score first, ties broken by
lower original index (stable, deterministic selection). -/
def tkRel (a b : ℕ × ℚ) : Prop :=
  b.2 < a.2 ∨ (a.2 = b.2 ∧ a.1 ≤ b.1)

instance : DecidableRel tkRel := fun a b => by
  unfold tkRel
  exact inferInstance

instance : IsTotal (ℕ × ℚ) tkRel := by
  constructor
  intro a b
  rcases lt_trichotomy a.2 b.2 with h | h | h
  · exact Or.inr (Or.inl h)
  · rcases le_total a.1 b.1 with hi | hi
    · exact Or.inl (Or.inr ⟨h, hi⟩)
    · exact Or.inr (Or.inr ⟨h.symm, hi⟩)
  · exact Or.inl (Or.inl h)

instance : IsTrans (ℕ × ℚ) tkRel := by
  constructor
  intro a b c hab hbc
  rcases hab with hab | ⟨hab, hab'⟩
  · rcases hbc with hbc | ⟨hbc, _⟩
    · exact Or.inl (hbc.trans hab)
    · exact Or.inl (hbc ▸ hab)
  · rcases hbc with hbc | ⟨hbc, hbc'⟩
    · exact Or.inl (lt_of_lt_of_eq hbc hab.symm)
    · exact Or.inr ⟨hab.trans hbc, hab'.trans hbc'⟩

/-- Embedding of `torch.topk(logits, k)` for `k ≤ logits.length`: the `k`
highest-scoring `(index, score)` pairs, sorted by descending score (the
order `torch.topk` returns). -/
def topk (logits : List ℚ) (k : ℕ) : List (ℕ × ℚ) :=
  (logits.enum.insertionSort tkRel).take k

/-- Softmax with kernel `e` (the source's `torch.softmax`; `e` abstracts
the real exponential). -/
def softmax (e : ℚ → ℚ) (xs : List ℚ) : List ℚ :=
  xs.map fun x => e x / (xs.map e).sum

/-- The distribution one loop iteration samples from: top-k restriction of
the scorer's logits, scores divided by the temperature, then softmax
(lines `top_k = torch.topk(...)` and `probabilities = torch.softmax(
top_k.values / Config.temperature, ...)` of the source).  At
`temperature = 0` the source's float division yields inf and the softmax
NaN, which later makes `torch.multinomial` raise; rational division by
zero yields `0` instead, so that floating-point corner is outside this
embedding and no theorem below draws conclusions from it. -/
def stepProbs (sc : List ℕ → List ℚ) (e : ℚ → ℚ) (cfg : Config)
    (ids : List ℕ) : List ℚ :=
  softmax e (((topk (sc ids) cfg.top_k).map Prod.snd).map
    fun v => v / cfg.temperature)

/-- Embedding of `confidence_loss` from the source:
`prob_sum = probabilities[:3].sum().item(); return 1 - prob_sum**2`. -/
def confidence_loss (probabilities : List ℚ) : ℚ :=
  1 - (probabilities.take 3).sum ^ 2

/-- Inverse-CDF selection embedding `torch.multinomial(probs, 1)` with one
uniform draw `u`: the first index whose cumulative probability exceeds
`u`.  On an empty or NaN distribution (`top_k = 0`, `temperature = 0`)
the source raises a RuntimeError; this total function returns index `0`
there instead, so no theorem in this file asserts anything about draws
from such degenerate distributions. -/
def pick : List ℚ → ℚ → ℕ
  | [], _ => 0
  | p :: ps, u => if u < p then 0 else pick ps (u - p) + 1

/-- The `while input_ids.size(0) < max_total_length` loop of `generate`.
The fuel argument equals `max_total_length - input_ids.size(0)`, which the
condition compares; every iteration either breaks or appends exactly one
token (decreasing that difference by one), so the fuel recursion is the
loop.  `q` counts model queries, `d` counts multinomial draws. -/
def loopGen (sc : List ℕ → List ℚ) (e : ℚ → ℚ) (cfg : Config)
    (rng : ℕ → ℚ) : ℕ → List ℕ → ℚ → ℕ → ℕ → Except GenError GenOut
  | 0, ids, conf, q, d => .ok ⟨ids, Reason.length, conf, q, d⟩
  | fuel + 1, ids, conf, q, d =>
    if (sc ids).length < cfg.top_k then .error GenError.topkRange
    else
      let probs := stepProbs sc e cfg ids
      let conf2 := conf - confidence_loss probs
      if conf2 < 0 then .ok ⟨ids, Reason.budget, conf2, q + 1, d⟩
      else
        let tok := ((topk (sc ids) cfg.top_k).map Prod.fst).getD
          (pick probs (rng d)) 0
        if tok = cfg.eos_token_id then
          .ok ⟨ids, Reason.endToken, conf2, q + 1, d + 1⟩
        else
          loopGen sc e cfg rng fuel (ids ++ [tok]) conf2 (q + 1) (d + 1)

/-- Embedding of `generate`: runs the loop from the encoded prompt with
fuel `max_length` (the loop condition `input_ids.size(0) <
input_ids.size(0) + Config.max_length` admits exactly that many appends)
and slices off the suffix `input_ids[original_length:]`.  `conf0` is the
value of the global `Config.confidence` when the call starts. -/
def generate (sc : List ℕ → List ℚ) (e : ℚ → ℚ) (cfg : Config)
    (rng : ℕ → ℚ) (prompt : List ℕ) (conf0 : ℚ) :
    Except GenError GenerationResult :=
  (loopGen sc e cfg rng cfg.max_length.toNat prompt conf0 0 0).map
    fun g => ⟨g.ids, g.ids.drop prompt.length, g.reason, g.conf,
      g.queries, g.draws⟩

/-- Scorer of the concrete scenarios: constant uniform logits over a
vocabulary of five tokens. -/
def scU : List ℕ → List ℚ := fun _ => List.replicate 5 0

/-- Configuration of the concrete scenarios: `top_k = 5`,
`temperature = 1`, end token `9` (outside the vocabulary). -/
def cfgU (m : ℤ) : Config := ⟨5, 1, m, 9⟩

/-- Random stream of the concrete scenarios: every uniform draw is
`1/10`. -/
def rngU : ℕ → ℚ := fun _ => 1 / 10

/-! ### General lemmas about the loop -/

/-- Every successful run only appends: the final sequence is the initial one
followed by a tail that never contains the end token, the tail length is
bounded by the number of scorer queries made, and the query count is
bounded by the fuel. -/
theorem loopGen_ok_spec (sc : List ℕ → List ℚ) (e : ℚ → ℚ) (cfg : Config)
    (rng : ℕ → ℚ) : ∀ fuel ids conf q d g,
    loopGen sc e cfg rng fuel ids conf q d = .ok g →
      ∃ t, g.ids = ids ++ t ∧ cfg.eos_token_id ∉ t ∧
        t.length + q ≤ g.queries ∧ g.queries ≤ q + fuel := by
  intro fuel
  induction fuel with
  | zero =>
    intro ids conf q d g h
    simp only [loopGen] at h
    injection h with h
    subst h
    exact ⟨[], by simp, by simp, by simp, by simp⟩
  | succ fuel ih =>
    intro ids conf q d g h
    simp only [loopGen] at h
    by_cases h1 : (sc ids).length < cfg.top_k
    · rw [if_pos h1] at h
      exact absurd h (by simp)
    · rw [if_neg h1] at h
      by_cases h2 : conf - confidence_loss (stepProbs sc e cfg ids) < 0
      · rw [if_pos h2] at h
        injection h with h
        subst h
        exact ⟨[], by simp, by simp, by show 0 + q ≤ q + 1; omega,
          by show q + 1 ≤ q + (fuel + 1); omega⟩
      · rw [if_neg h2] at h
        by_cases h3 : ((topk (sc ids) cfg.top_k).map Prod.fst).getD
            (pick (stepProbs sc e cfg ids) (rng d)) 0 = cfg.eos_token_id
        · rw [if_pos h3] at h
          injection h with h
          subst h
          exact ⟨[], by simp, by simp, by show 0 + q ≤ q + 1; omega,
            by show q + 1 ≤ q + (fuel + 1); omega⟩
        · rw [if_neg h3] at h
          obtain ⟨t, hids, hnotin, hlen, hq⟩ := ih _ _ _ _ _ h
          rw [List.append_assoc, List.singleton_append] at hids
          refine ⟨_ :: t, hids, ?_, ?_, by omega⟩
          · simp only [List.mem_cons, not_or]
            exact ⟨fun hc => h3 hc.symm, hnotin⟩
          · simp only [List.length_cons]
            omega

/-! ### Sortedness of the sampling distribution -/

/-- The top-k candidate list is sorted under the selection order. -/
theorem topk_pairwise (logits : List ℚ) (k : ℕ) :
    (topk logits k).Pairwise tkRel :=
  List.Pairwise.sublist (List.take_sublist k _)
    (List.sorted_insertionSort tkRel logits.enum)

/-- A softmax with a monotone positive kernel preserves non-increasing
order. -/
theorem softmax_pairwise (e : ℚ → ℚ) (he : Monotone e) (hpos : ∀ x, 0 < e x)
    (xs : List ℚ) (hxs : xs.Pairwise fun a b => b ≤ a) :
    (softmax e xs).Pairwise fun a b => b ≤ a := by
  rcases xs with _ | ⟨x, xs⟩
  · simp [softmax]
  · have hS : 0 < ((x :: xs).map e).sum := by
      apply List.sum_pos
      · intro y hy
        simp only [List.mem_map] at hy
        obtain ⟨z, _, rfl⟩ := hy
        exact hpos z
      · simp
    unfold softmax
    rw [List.pairwise_map]
    refine hxs.imp ?_
    intro a b hab
    exact (div_le_div_iff_of_pos_right hS).mpr (he hab)

/-- The per-step distribution inherits the descending order of the top-k
scores through temperature scaling and softmax. -/
theorem stepProbs_pairwise (sc : List ℕ → List ℚ) (e : ℚ → ℚ) (cfg : Config)
    (ids : List ℕ) (he : Monotone e) (hpos : ∀ x, 0 < e x)
    (ht : 0 < cfg.temperature) :
    (stepProbs sc e cfg ids).Pairwise fun a b => b ≤ a := by
  unfold stepProbs
  apply softmax_pairwise e he hpos
  rw [List.pairwise_map, List.pairwise_map]
  refine (topk_pairwise (sc ids) cfg.top_k).imp ?_
  intro a b hab
  refine (div_le_div_iff_of_pos_right ht).mpr ?_
  rcases hab with hab | ⟨hab, _⟩
  · exact le_of_lt hab
  · exact le_of_eq hab.symm

/-! ### Concrete uniform scenario -/

/-- Top-k of the uniform scorer: all five candidates, index order. -/
theorem topk_scU (ids : List ℕ) :
    topk (scU ids) 5 = [(0, 0), (1, 0), (2, 0), (3, 0), (4, 0)] := by
  simp [topk, scU, List.insertionSort, List.orderedInsert, tkRel, List.enum]

/-- With all-equal logits the distribution is uniform for every kernel that
is positive at `0` (in particular for the real exponential). -/
theorem stepProbs_scU (e : ℚ → ℚ) (he : 0 < e 0) (m : ℤ) (ids : List ℕ) :
    stepProbs scU e (cfgU m) ids = List.replicate 5 (1/5) := by
  simp only [stepProbs, cfgU, topk_scU]
  simp only [List.map_cons, List.map_nil, softmax, List.sum_cons, List.sum_nil]
  norm_num
  have hs : e 0 + (e 0 + (e 0 + (e 0 + e 0))) = 5 * e 0 := by ring
  rw [hs]
  have hv : e 0 / (5 * e 0) = 1/5 := by
    rw [div_eq_div_iff (ne_of_gt (mul_pos (by norm_num) he)) (by norm_num)]
    ring
  rw [hv]
  simp [List.replicate]

/-- Charge of the uniform five-candidate distribution. -/
theorem loss_replicate5 : confidence_loss (List.replicate 5 ((1:ℚ)/5)) = 16/25 := by
  norm_num [confidence_loss, List.replicate]

/-- In the uniform scenario an iteration whose post-charge budget is
negative halts at once. -/
theorem loopGen_cfgU_halt (e : ℚ → ℚ) (he : 0 < e 0) (m : ℤ) (fuel : ℕ)
    (ids : List ℕ) (conf : ℚ) (q d : ℕ) (h : conf - 16/25 < 0) :
    loopGen scU e (cfgU m) rngU (fuel + 1) ids conf q d
      = .ok ⟨ids, Reason.budget, conf - 16/25, q + 1, d⟩ := by
  simp only [loopGen, stepProbs_scU e he, loss_replicate5]
  rw [if_neg (by norm_num [scU, cfgU]), if_pos h]

/-- In the uniform scenario an iteration whose post-charge budget stays
non-negative draws token `0` and appends it. -/
theorem loopGen_cfgU_step (e : ℚ → ℚ) (he : 0 < e 0) (m : ℤ) (fuel : ℕ)
    (ids : List ℕ) (conf : ℚ) (q d : ℕ) (h : ¬ conf - 16/25 < 0) :
    loopGen scU e (cfgU m) rngU (fuel + 1) ids conf q d
      = loopGen scU e (cfgU m) rngU fuel (ids ++ [0]) (conf - 16/25) (q + 1) (d + 1) := by
  simp only [loopGen, stepProbs_scU e he, loss_replicate5]
  rw [if_neg (by norm_num [scU, cfgU]), if_neg h]
  have hp : pick (List.replicate 5 ((1:ℚ)/5)) (rngU d) = 0 := by
    simp only [List.replicate, pick, rngU]
    rw [if_pos (by norm_num)]
  simp only [cfgU, topk_scU, hp, List.map_cons, List.map_nil, List.getD_cons_zero]
  rw [if_neg (by norm_num)]

/-- A call in the uniform scenario whose very first charge crosses zero
returns an empty suffix and the depleted confidence. -/
theorem generate_cfgU_halt (e : ℚ → ℚ) (he : 0 < e 0) (p : List ℕ)
    (conf : ℚ) (h : conf - 16/25 < 0) :
    generate scU e (cfgU 5) rngU p conf
      = .ok ⟨p, [], Reason.budget, conf - 16/25, 1, 0⟩ := by
  simp only [generate]
  rw [show (cfgU 5).max_length.toNat = 4 + 1 from rfl]
  rw [loopGen_cfgU_halt e he 5 4 p conf 0 0 h]
  simp [Except.map, List.drop_length]

/-- A call in the uniform scenario starting from confidence `1` appends one
token and then halts on the budget. -/
theorem generate_cfgU_one (e : ℚ → ℚ) (he : 0 < e 0) :
    generate scU e (cfgU 5) rngU [3] 1
      = .ok ⟨[3, 0], [0], Reason.budget, -7/25, 2, 1⟩ := by
  simp only [generate]
  rw [show (cfgU 5).max_length.toNat = 4 + 1 from rfl]
  rw [loopGen_cfgU_step e he 5 4 [3] 1 0 0 (by norm_num)]
  rw [show (4 : ℕ) = 3 + 1 from rfl]
  rw [loopGen_cfgU_halt e he 5 3 ([3] ++ [0]) (1 - 16/25) 1 1 (by norm_num)]
  simp only [Except.map]
  norm_num

/-- Budget hypothesis instance for the witnesses: starting from confidence
`0`, the uniform-scenario charge makes the budget negative. -/
theorem scU_loss_neg :
    (0:ℚ) - confidence_loss (stepProbs scU (fun _ : ℚ => 1) (cfgU 5) [3]) < 0 := by
  rw [stepProbs_scU _ one_pos, loss_replicate5]
  norm_num

/-- Entries of the two-candidate half/half distribution are non-negative. -/
theorem halves_nonneg : ∀ x ∈ [(1:ℚ)/2, 1/2], 0 ≤ x := by
  intro x hx
  simp only [List.mem_cons, List.not_mem_nil, or_false] at hx
  rcases hx with rfl | rfl <;> norm_num

/-- The two-candidate half/half distribution sums to one. -/
theorem halves_sum : ([(1:ℚ)/2, 1/2]).sum = 1 := by
  norm_num

/-! ### Claims -/

/-- C1: the claim says the confidence budget is fresh per call; the code
instead depletes the global `Config.confidence` in place.  With uniform
logits over five candidates, `top_k = 5`, `temperature = 1` and configured
confidence `1/2`, the first call ends with the global confidence at
`-7/50 ≠ 1/2`, and a second identical call therefore starts from the
depleted value `-7/50` and drives it further down to `-39/50`, instead of
starting again from `1/2`.  Holds for every softmax kernel positive at
`0`, hence for the real exponential. -/
theorem confidence_global_depletion (e : ℚ → ℚ) (he : 0 < e 0) :
    generate scU e (cfgU 5) rngU [3] (1/2)
        = .ok ⟨[3], [], Reason.budget, -7/50, 1, 0⟩
    ∧ generate scU e (cfgU 5) rngU [3] (-7/50)
        = .ok ⟨[3], [], Reason.budget, -39/50, 1, 0⟩
    ∧ (-7/50 : ℚ) ≠ 1/2 := by
  refine ⟨?_, ?_, by norm_num⟩
  · have h := generate_cfgU_halt e he [3] (1/2) (by norm_num)
    rw [show (1:ℚ)/2 - 16/25 = -7/50 by norm_num] at h
    exact h
  · have h := generate_cfgU_halt e he [3] (-7/50) (by norm_num)
    rw [show (-7:ℚ)/50 - 16/25 = -39/50 by norm_num] at h
    exact h

/-- Witness for C1 at the concrete kernel constantly `1`. -/
theorem confidence_global_depletion_w :
    generate scU (fun _ : ℚ => 1) (cfgU 5) rngU [3] (1/2)
        = .ok ⟨[3], [], Reason.budget, -7/50, 1, 0⟩
    ∧ generate scU (fun _ : ℚ => 1) (cfgU 5) rngU [3] (-7/50)
        = .ok ⟨[3], [], Reason.budget, -39/50, 1, 0⟩
    ∧ (-7/50 : ℚ) ≠ 1/2 :=
  confidence_global_depletion (fun _ => 1) one_pos

/-- C2: the determinism claim fails on the code.  With the same prompt
`[3]`, the same configuration and the same random stream, the first call
(from configured confidence `1`) returns suffix `[0]`, but a second,
textually identical call returns the empty suffix, because the first call
left the global `Config.confidence` at `-7/25`.  Holds for every softmax
kernel positive at `0`. -/
theorem second_call_output_differs (e : ℚ → ℚ) (he : 0 < e 0) :
    generate scU e (cfgU 5) rngU [3] 1
        = .ok ⟨[3, 0], [0], Reason.budget, -7/25, 2, 1⟩
    ∧ generate scU e (cfgU 5) rngU [3] (-7/25)
        = .ok ⟨[3], [], Reason.budget, -23/25, 1, 0⟩
    ∧ ([0] : List ℕ) ≠ ([] : List ℕ) := by
  refine ⟨generate_cfgU_one e he, ?_, by simp⟩
  have h := generate_cfgU_halt e he [3] (-7/25) (by norm_num)
  rw [show (-7:ℚ)/25 - 16/25 = -23/25 by norm_num] at h
  exact h

/-- Witness for C2 at the concrete kernel constantly `1`. -/
theorem second_call_output_differs_w :
    generate scU (fun _ : ℚ => 1) (cfgU 5) rngU [3] 1
        = .ok ⟨[3, 0], [0], Reason.budget, -7/25, 2, 1⟩
    ∧ generate scU (fun _ : ℚ => 1) (cfgU 5) rngU [3] (-7/25)
        = .ok ⟨[3], [], Reason.budget, -23/25, 1, 0⟩
    ∧ ([0] : List ℕ) ≠ ([] : List ℕ) :=
  second_call_output_differs (fun _ => 1) one_pos

/-- C3: the charge equals `1 - (sum of the first three probabilities)^2`;
when the distribution has fewer than three entries the slice is the whole
list; and a budget-halting step returns exactly the previous budget minus
this penalty. -/
theorem confidence_loss_formula :
    (∀ probabilities : List ℚ,
        confidence_loss probabilities
          = 1 - ((probabilities.take 3).sum) ^ 2)
    ∧ (∀ probabilities : List ℚ, probabilities.length < 3 →
        probabilities.take 3 = probabilities)
    ∧ ∀ (sc : List ℕ → List ℚ) (e : ℚ → ℚ) (cfg : Config) (rng : ℕ → ℚ)
        (fuel : ℕ) (ids : List ℕ) (conf : ℚ) (q d : ℕ),
        ¬ (sc ids).length < cfg.top_k →
        conf - confidence_loss (stepProbs sc e cfg ids) < 0 →
        loopGen sc e cfg rng (fuel + 1) ids conf q d
          = .ok ⟨ids, Reason.budget,
              conf - (1 - ((stepProbs sc e cfg ids).take 3).sum ^ 2),
              q + 1, d⟩ := by
  refine ⟨fun _ => rfl, fun p hp => List.take_of_length_le (by omega), ?_⟩
  intro sc e cfg rng fuel ids conf q d hk h
  simp only [loopGen]
  rw [if_neg hk, if_pos h]
  rfl

/-- Witness for C3: a singleton distribution and the uniform scenario with
starting confidence `0`. -/
theorem confidence_loss_formula_w :
    confidence_loss [(1:ℚ)/2] = 1 - ((([(1:ℚ)/2]).take 3).sum) ^ 2
    ∧ [(1:ℚ)/2].take 3 = [(1:ℚ)/2]
    ∧ loopGen scU (fun _ : ℚ => 1) (cfgU 5) rngU (0 + 1) [3] 0 0 0
        = .ok ⟨[3], Reason.budget,
            0 - (1 - ((stepProbs scU (fun _ : ℚ => 1) (cfgU 5) [3]).take
              3).sum ^ 2), 0 + 1, 0⟩ :=
  ⟨confidence_loss_formula.1 _,
   confidence_loss_formula.2.1 _ (by decide),
   confidence_loss_formula.2.2 scU _ (cfgU 5) rngU 0 [3] 0 0 0 (by decide)
     scU_loss_neg⟩

/-- C4: when the post-charge budget is negative the iteration returns at
once with the sequence unchanged and the draw counter unchanged — the
budget is charged before sampling and the loop halts before the random
draw, appending no token. -/
theorem budget_halt_before_draw (sc : List ℕ → List ℚ) (e : ℚ → ℚ)
    (cfg : Config) (rng : ℕ → ℚ) (fuel : ℕ) (ids : List ℕ) (conf : ℚ)
    (q d : ℕ) (hk : ¬ (sc ids).length < cfg.top_k)
    (h : conf - confidence_loss (stepProbs sc e cfg ids) < 0) :
    loopGen sc e cfg rng (fuel + 1) ids conf q d
      = .ok ⟨ids, Reason.budget,
          conf - confidence_loss (stepProbs sc e cfg ids), q + 1, d⟩ := by
  simp only [loopGen]
  rw [if_neg hk, if_pos h]

/-- Witness for C4 in the uniform scenario with starting confidence `0`. -/
theorem budget_halt_before_draw_w :
    loopGen scU (fun _ : ℚ => 1) (cfgU 5) rngU (0 + 1) [3] 0 0 0
      = .ok ⟨[3], Reason.budget,
          0 - confidence_loss (stepProbs scU (fun _ : ℚ => 1) (cfgU 5) [3]),
          0 + 1, 0⟩ :=
  budget_halt_before_draw scU _ (cfgU 5) rngU 0 [3] 0 0 0 (by decide)
    scU_loss_neg

/-- C5: a successful generation never emits the end token: every token in
the returned suffix was appended only after the equality test against
`eos_token_id` failed, so the end token is consumed, not emitted. -/
theorem suffix_no_eos (sc : List ℕ → List ℚ) (e : ℚ → ℚ) (cfg : Config)
    (rng : ℕ → ℚ) (prompt : List ℕ) (conf0 : ℚ) (g : GenerationResult)
    (h : generate sc e cfg rng prompt conf0 = .ok g) :
    cfg.eos_token_id ∉ g.suffix := by
  unfold generate at h
  cases hl : loopGen sc e cfg rng cfg.max_length.toNat prompt conf0 0 0 with
  | error err =>
    rw [hl] at h
    exact absurd h (by simp [Except.map])
  | ok g0 =>
    rw [hl] at h
    simp only [Except.map] at h
    injection h with h
    obtain ⟨t, hids, hnotin, _, _⟩ := loopGen_ok_spec sc e cfg rng _ _ _ _ _ _ hl
    subst h
    show cfg.eos_token_id ∉ g0.ids.drop prompt.length
    rw [hids, List.drop_left]
    exact hnotin

/-- Witness for C5: the end token `9` is absent from the suffix `[0]` of
the uniform-scenario run. -/
theorem suffix_no_eos_w : (cfgU 5).eos_token_id ∉ ([0] : List ℕ) :=
  suffix_no_eos scU (fun _ : ℚ => 1) (cfgU 5) rngU [3] 1
    ⟨[3, 0], [0], Reason.budget, -7/25, 2, 1⟩ (generate_cfgU_one _ one_pos)

/-- C6: a successful call leaves the prompt prefix intact (the final
sequence is the prompt followed by the suffix), grows the suffix by at
most one token per scorer query, and makes at most `max_length` scorer
queries, so the suffix length is at most `max_length`. -/
theorem generation_bounds (sc : List ℕ → List ℚ) (e : ℚ → ℚ) (cfg : Config)
    (rng : ℕ → ℚ) (prompt : List ℕ) (conf0 : ℚ) (g : GenerationResult)
    (h : generate sc e cfg rng prompt conf0 = .ok g) :
    g.ids = prompt ++ g.suffix
    ∧ g.suffix.length ≤ g.queries
    ∧ g.queries ≤ cfg.max_length.toNat := by
  unfold generate at h
  cases hl : loopGen sc e cfg rng cfg.max_length.toNat prompt conf0 0 0 with
  | error err =>
    rw [hl] at h
    exact absurd h (by simp [Except.map])
  | ok g0 =>
    rw [hl] at h
    simp only [Except.map] at h
    injection h with h
    obtain ⟨t, hids, _, hlen, hq⟩ := loopGen_ok_spec sc e cfg rng _ _ _ _ _ _ hl
    subst h
    refine ⟨?_, ?_, ?_⟩
    · show g0.ids = prompt ++ g0.ids.drop prompt.length
      rw [hids, List.drop_left]
    · show (g0.ids.drop prompt.length).length ≤ g0.queries
      rw [hids, List.drop_left]
      omega
    · show g0.queries ≤ cfg.max_length.toNat
      omega

/-- Witness for C6 on the uniform-scenario run. -/
theorem generation_bounds_w :
    ([3, 0] : List ℕ) = [3] ++ [0]
    ∧ ([0] : List ℕ).length ≤ 2
    ∧ 2 ≤ (cfgU 5).max_length.toNat :=
  generation_bounds scU (fun _ : ℚ => 1) (cfgU 5) rngU [3] 1
    ⟨[3, 0], [0], Reason.budget, -7/25, 2, 1⟩ (generate_cfgU_one _ one_pos)

/-- C7: for a distribution with non-negative entries summing to one the
penalty is non-negative, so a charge never increases the budget — across
the steps of one call the budget is monotonically non-increasing. -/
theorem penalty_nonneg (probs : List ℚ) (h1 : ∀ x ∈ probs, 0 ≤ x)
    (h2 : probs.sum = 1) :
    0 ≤ confidence_loss probs
    ∧ ∀ conf : ℚ, conf - confidence_loss probs ≤ conf := by
  have h0 : 0 ≤ (probs.take 3).sum :=
    List.sum_nonneg fun x hx => h1 x (List.mem_of_mem_take hx)
  have hd : 0 ≤ (probs.drop 3).sum :=
    List.sum_nonneg fun x hx => h1 x (List.mem_of_mem_drop hx)
  have hsplit : (probs.take 3).sum + (probs.drop 3).sum = 1 := by
    rw [← List.sum_append, List.take_append_drop]
    exact h2
  have hle : (probs.take 3).sum ≤ 1 := by linarith
  have hsq : (probs.take 3).sum ^ 2 ≤ 1 := pow_le_one₀ h0 hle
  constructor
  · unfold confidence_loss
    linarith
  · intro conf
    unfold confidence_loss
    linarith

/-- Witness for C7 on the half/half distribution. -/
theorem penalty_nonneg_w :
    0 ≤ confidence_loss [(1:ℚ)/2, 1/2]
    ∧ (1:ℚ) - confidence_loss [(1:ℚ)/2, 1/2] ≤ 1 :=
  ⟨(penalty_nonneg _ halves_nonneg halves_sum).1,
   (penalty_nonneg _ halves_nonneg halves_sum).2 1⟩

/-- C8: with `max_length = 0` the loop condition is false at entry, so the
call makes zero scorer queries and returns an empty suffix with the
length-cap reason; and every successful result carries one of the three
terminal reasons. -/
theorem max_length_zero_result (sc : List ℕ → List ℚ) (e : ℚ → ℚ)
    (cfg : Config) (rng : ℕ → ℚ) (prompt : List ℕ) (conf0 : ℚ) :
    (cfg.max_length = 0 →
      generate sc e cfg rng prompt conf0
        = .ok ⟨prompt, [], Reason.length, conf0, 0, 0⟩)
    ∧ ∀ g : GenerationResult, generate sc e cfg rng prompt conf0 = .ok g →
        g.reason = Reason.budget ∨ g.reason = Reason.endToken ∨
          g.reason = Reason.length := by
  constructor
  · intro h
    unfold generate
    rw [h]
    simp [loopGen, Except.map, List.drop_length]
  · intro g _
    cases g.reason with
    | budget => exact Or.inl rfl
    | endToken => exact Or.inr (Or.inl rfl)
    | length => exact Or.inr (Or.inr rfl)

/-- Witness for C8 at `max_length = 0`. -/
theorem max_length_zero_result_w :
    generate scU (fun _ : ℚ => 1) (cfgU 0) rngU [1, 2] 0
        = .ok ⟨[1, 2], [], Reason.length, 0, 0, 0⟩
    ∧ (Reason.length = Reason.budget ∨ Reason.length = Reason.endToken ∨
        Reason.length = Reason.length) :=
  ⟨(max_length_zero_result scU (fun _ : ℚ => 1) (cfgU 0) rngU [1, 2] 0).1 rfl,
   (max_length_zero_result scU (fun _ : ℚ => 1) (cfgU 0) rngU [1, 2] 0).2
     ⟨[1, 2], [], Reason.length, 0, 0, 0⟩
     ((max_length_zero_result scU (fun _ : ℚ => 1) (cfgU 0) rngU [1, 2] 0).1 rfl)⟩

/-- C9 counterexample: `max_length = -1` is outside the valid range claimed
for `max_new_tokens`, yet `generate` does not fail with
`invalidConfiguration` — it returns a normal empty-suffix result, because
the source performs no configuration validation at all. -/
theorem no_validation_counterexample :
    generate scU (fun _ : ℚ => 1) ⟨1, 1, -1, 9⟩ (fun _ => 0) [0] 1
      = .ok ⟨[0], [], Reason.length, 1, 0, 0⟩
    ∧ generate scU (fun _ : ℚ => 1) ⟨1, 1, -1, 9⟩ (fun _ => 0) [0] 1
      ≠ .error GenError.invalidConfiguration := by
  have h : generate scU (fun _ : ℚ => 1) ⟨1, 1, -1, 9⟩ (fun _ => 0) [0] 1
      = .ok ⟨[0], [], Reason.length, 1, 0, 0⟩ := rfl
  refine ⟨h, ?_⟩
  rw [h]
  exact fun hc => Except.noConfusion hc

/-- C9 amended: the source performs no configuration validation before
the loop and raises no `invalidConfiguration` there.  Two clauses, each
faithful at every configuration because neither ever reaches a random
draw: `max_new_tokens ≤ 0` makes the loop condition false at entry, so
the call returns a normal empty-suffix result with zero scorer queries
and no error; and a `top_k` larger than the score vector fails at the
first loop iteration — mid-loop — with the top-k range error, raised by
the top-k call before the temperature division or any sampling.  The
remaining invalid configurations (`temperature = 0`, `top_k = 0`) fail,
if at all, mid-loop inside `torch.multinomial` on NaN or empty float
distributions, paths outside this rational embedding and deliberately
not claimed here. -/
theorem no_validation_before_loop :
    (∀ (sc : List ℕ → List ℚ) (e : ℚ → ℚ) (cfg : Config) (rng : ℕ → ℚ)
        (prompt : List ℕ) (conf0 : ℚ), cfg.max_length ≤ 0 →
        generate sc e cfg rng prompt conf0
          = .ok ⟨prompt, [], Reason.length, conf0, 0, 0⟩)
    ∧ ∀ (sc : List ℕ → List ℚ) (e : ℚ → ℚ) (cfg : Config) (rng : ℕ → ℚ)
        (prompt : List ℕ) (conf0 : ℚ), (sc prompt).length < cfg.top_k →
        1 ≤ cfg.max_length →
        generate sc e cfg rng prompt conf0 = .error GenError.topkRange := by
  constructor
  · intro sc e cfg rng prompt conf0 h
    unfold generate
    rw [Int.toNat_of_nonpos h]
    simp [loopGen, Except.map, List.drop_length]
  · intro sc e cfg rng prompt conf0 hk hm
    unfold generate
    obtain ⟨n, hn⟩ : ∃ n, cfg.max_length.toNat = n + 1 := by
      have hne : cfg.max_length.toNat ≠ 0 := by omega
      cases h' : cfg.max_length.toNat with
      | zero => exact absurd h' hne
      | succ n => exact ⟨n, rfl⟩
    rw [hn]
    simp only [loopGen]
    rw [if_pos hk]
    rfl

/-- Witness for C9: the no-error clause at the invalid `max_length = -1`,
and the mid-loop top-k failure at `top_k = 6` over five logits. -/
theorem no_validation_before_loop_w :
    generate scU (fun _ : ℚ => 1) ⟨1, 1, -1, 9⟩ (fun _ => 0) [0] 1
        = .ok ⟨[0], [], Reason.length, 1, 0, 0⟩
    ∧ generate scU (fun _ : ℚ => 1) ⟨6, 1, 3, 9⟩ rngU [0] 1
        = .error GenError.topkRange :=
  ⟨no_validation_before_loop.1 scU (fun _ => 1) ⟨1, 1, -1, 9⟩ (fun _ => 0)
     [0] 1 (by decide),
   no_validation_before_loop.2 scU (fun _ => 1) ⟨6, 1, 3, 9⟩ rngU [0] 1
     (by decide) (by decide)⟩

/-- C10: with a positive temperature and a monotone positive softmax
kernel (both hold for the source's temperature-scaled real-exponential
softmax), the per-step distribution is sorted in non-increasing order, so
the first three entries that `confidence_loss` slices are at least as
large as every later entry — the slice selects the three largest
probabilities. -/
theorem stepProbs_sorted_topThree (sc : List ℕ → List ℚ) (e : ℚ → ℚ)
    (cfg : Config) (ids : List ℕ) (he : Monotone e) (hpos : ∀ x, 0 < e x)
    (ht : 0 < cfg.temperature) :
    (stepProbs sc e cfg ids).Sorted (fun a b => b ≤ a)
    ∧ ∀ x ∈ (stepProbs sc e cfg ids).drop 3,
        ∀ y ∈ (stepProbs sc e cfg ids).take 3, x ≤ y := by
  have hp := stepProbs_pairwise sc e cfg ids he hpos ht
  exact ⟨hp, fun x hx y hy => hp.rel_of_mem_take_of_mem_drop hy hx⟩

/-- Witness for C10 with the monotone positive kernel `max · 1`. -/
theorem stepProbs_sorted_topThree_w :
    (stepProbs scU (fun x : ℚ => max x 1) (cfgU 5) [3]).Sorted
      (fun a b => b ≤ a) :=
  (stepProbs_sorted_topThree scU (fun x : ℚ => max x 1) (cfgU 5) [3]
    (monotone_id.max monotone_const) (fun x => lt_max_of_lt_right one_pos)
    (by decide)).1
